import Mathlib

/-!
Verification of the core identifier layer of `crates/pathfinder/src/core.rs`:
nominal wrapper types over field elements, u64 values and Ethereum words,
block-height arithmetic, and the entry-point selector derivation.

Machine integers are embedded as `Nat` with explicit reduction modulo `2 ^ 64`
where overflow matters (the release-build wrapping semantics of Rust's
unchecked `+` and `-` on `u64`).
-/

/-- The size of the `u64` machine-integer domain. -/
def U64_SIZE : Nat := 2 ^ 64

/-- The StarkNet field prime, `2^251 + 17 * 2^192 + 1`. -/
def STARK_PRIME : Nat := 2 ^ 251 + 17 * 2 ^ 192 + 1

/-- Embedding of `pedersen::StarkHash`: a wrapper around a 252-bit field-element
value. The in-range invariant (`val < STARK_PRIME`) is tracked in theorems
rather than in the type. -/
structure StarkHash where
  val : Nat
deriving DecidableEq, Repr

/-- Modelled from the spec: the field-element representation's canonical 32-byte
big-endian decoding (`StarkHash::from_be_bytes` of the `pedersen` crate, absent
from `src/`), which succeeds exactly when the decoded big-endian integer is
strictly less than the field prime. Bytes are reduced modulo 256 as `u8`
values. -/
def StarkHash.from_be_bytes (bs : List Nat) : Option StarkHash :=
  let v := bs.foldl (fun a b => a * 256 + b % 256) 0
  if v < STARK_PRIME then some ⟨v⟩ else none

/-- Embedding of `struct ContractAddress(pub StarkHash)` (core.rs line 11). -/
structure ContractAddress where
  val : StarkHash
deriving DecidableEq, Repr

/-- Embedding of `struct EntryPoint(pub StarkHash)` (core.rs line 46). -/
structure EntryPoint where
  val : StarkHash
deriving DecidableEq, Repr

/-- Embedding of `struct StarknetBlockHash(pub StarkHash)` (core.rs line 95). -/
structure StarknetBlockHash where
  val : StarkHash
deriving DecidableEq, Repr

/-- Embedding of `struct StarknetBlockNumber(pub u64)` (core.rs line 99): the
wrapped value is a `u64`, a natural number below `U64_SIZE`. -/
structure StarknetBlockNumber where
  val : Nat
deriving DecidableEq, Repr

/-- Embedding of `web3::types::H256`: a 256-bit Ethereum word. -/
structure H256 where
  val : Nat
deriving DecidableEq, Repr

/-- Embedding of `struct EthereumBlockHash(pub H256)` (core.rs line 147). -/
structure EthereumBlockHash where
  val : H256
deriving DecidableEq, Repr

/-- Embedding of `struct EthereumBlockNumber(pub u64)` (core.rs line 151). -/
structure EthereumBlockNumber where
  val : Nat
deriving DecidableEq, Repr

/-- The structural equality `derive(PartialEq)` gives `StarkHash` (equality of
the wrapped field-element value), used by the derived equality of every
field-element-backed identifier. -/
def StarkHash.beq (a b : StarkHash) : Bool := a.val == b.val

/-- Embedding of the `derive(PartialEq)` equality of `ContractAddress`:
field-wise comparison of the single wrapped `StarkHash`. -/
def ContractAddress.beq (a b : ContractAddress) : Bool :=
  StarkHash.beq a.val b.val

/-- Embedding of the `derive(PartialEq)` equality of `StarknetBlockNumber`:
field-wise comparison of the single wrapped `u64`. -/
def StarknetBlockNumber.beq (a b : StarknetBlockNumber) : Bool :=
  a.val == b.val

/-- The structural equality of `web3::types::H256`: equality of the 256-bit
word. -/
def H256.beq (a b : H256) : Bool := a.val == b.val

/-- Embedding of the `derive(PartialEq)` equality of `EthereumBlockHash`:
field-wise comparison of the single wrapped `H256`. -/
def EthereumBlockHash.beq (a b : EthereumBlockHash) : Bool :=
  H256.beq a.val b.val

/-- Embedding of `StarknetBlockNumber::GENESIS` (core.rs line 166). -/
def StarknetBlockNumber.GENESIS : StarknetBlockNumber := ⟨0⟩

/-- Embedding of `impl Add<u64> for StarknetBlockNumber` (core.rs lines
175-181): `Self(self.0 + rhs)`, with `u64` addition reduced modulo `2 ^ 64`
(release-build wrapping semantics). -/
def StarknetBlockNumber.add (self : StarknetBlockNumber) (rhs : Nat) :
    StarknetBlockNumber :=
  ⟨(self.val + rhs) % U64_SIZE⟩

/-- Embedding of `impl AddAssign<u64> for StarknetBlockNumber` (core.rs lines
183-187): `self.0 += rhs`, written as explicit state passing returning the
updated receiver. -/
def StarknetBlockNumber.add_assign (self : StarknetBlockNumber) (rhs : Nat) :
    StarknetBlockNumber :=
  ⟨(self.val + rhs) % U64_SIZE⟩

/-- Embedding of `impl Sub<u64> for StarknetBlockNumber` (core.rs lines
189-195): `Self(self.0 - rhs)`, with `u64` subtraction reduced modulo `2 ^ 64`
(for `u64` operands `self.val`, `rhs` below `U64_SIZE` this is the two's
complement wrap `(self.val + 2 ^ 64 - rhs) % 2 ^ 64`). -/
def StarknetBlockNumber.sub (self : StarknetBlockNumber) (rhs : Nat) :
    StarknetBlockNumber :=
  ⟨(self.val + (U64_SIZE - rhs)) % U64_SIZE⟩

/-- Embedding of `impl SubAssign<u64> for StarknetBlockNumber` (core.rs lines
197-201): `self.0 -= rhs`, written as explicit state passing returning the
updated receiver. -/
def StarknetBlockNumber.sub_assign (self : StarknetBlockNumber) (rhs : Nat) :
    StarknetBlockNumber :=
  ⟨(self.val + (U64_SIZE - rhs)) % U64_SIZE⟩

/-- Embedding of `impl PartialOrd for StarknetBlockNumber` (core.rs lines
169-173): `self.0.partial_cmp(&other.0)`, which for `u64` always returns
`Some` of the three-way comparison of the wrapped values. -/
def StarknetBlockNumber.partial_cmp (self other : StarknetBlockNumber) :
    Option Ordering :=
  some (compare self.val other.val)

/-- The `<` operator Rust derives from `PartialOrd`: true exactly when
`partial_cmp` returns `Some(Less)`. -/
def StarknetBlockNumber.lt (self other : StarknetBlockNumber) : Bool :=
  self.partial_cmp other == some Ordering.lt

/-- Modelled from the spec: the tag alternatives of the RPC layer's tagged
block-reference types (`crate::rpc::types`, absent from `src/`). -/
inductive Tag where
  | Latest : Tag
  | Pending : Tag
deriving DecidableEq, Repr

/-- Modelled from the spec: the RPC layer's `BlockNumberOrTag` sum type, the
`{Number(height) | Tag(...)}` reference variant (`crate::rpc::types`, absent
from `src/`). -/
inductive BlockNumberOrTag where
  | Number : StarknetBlockNumber → BlockNumberOrTag
  | Tag : Tag → BlockNumberOrTag
deriving DecidableEq, Repr

/-- Modelled from the spec: the RPC layer's `BlockHashOrTag` sum type, the
`{Hash(hash) | Tag(...)}` reference variant (`crate::rpc::types`, absent from
`src/`). -/
inductive BlockHashOrTag where
  | Hash : StarknetBlockHash → BlockHashOrTag
  | Tag : Tag → BlockHashOrTag
deriving DecidableEq, Repr

/-- Modelled from the spec: the external Ethereum client's numeric-or-tagged
block-number parameter (`web3::types::BlockNumber`). -/
inductive Web3BlockNumber where
  | Latest : Web3BlockNumber
  | Earliest : Web3BlockNumber
  | Pending : Web3BlockNumber
  | Number : Nat → Web3BlockNumber
deriving DecidableEq, Repr

/-- Modelled from the spec: the external Ethereum client's block-query
parameter (`web3::types::BlockId`), either a hash or a block-number
reference. -/
inductive Web3BlockId where
  | Hash : H256 → Web3BlockId
  | Number : Web3BlockNumber → Web3BlockId
deriving DecidableEq, Repr

/-- Embedding of `impl From<EthereumBlockNumber> for web3::types::BlockId`
(core.rs lines 203-207):
`BlockId::Number(BlockNumber::Number(number.0.into()))`. -/
def Web3BlockId.ofEthereumBlockNumber (number : EthereumBlockNumber) :
    Web3BlockId :=
  Web3BlockId.Number (Web3BlockNumber.Number number.val)

/-- Embedding of `impl From<StarknetBlockNumber> for BlockNumberOrTag`
(core.rs lines 209-213): `BlockNumberOrTag::Number(number)`. -/
def BlockNumberOrTag.ofStarknetBlockNumber (number : StarknetBlockNumber) :
    BlockNumberOrTag :=
  BlockNumberOrTag.Number number

/-- Embedding of `impl From<StarknetBlockHash> for BlockHashOrTag`
(core.rs lines 215-219): `BlockHashOrTag::Hash(hash)`. -/
def BlockHashOrTag.ofStarknetBlockHash (hash : StarknetBlockHash) :
    BlockHashOrTag :=
  BlockHashOrTag.Hash hash

/-- Left rotation of a 64-bit lane, the bit rotation used by the Keccak-f
permutation, with the result reduced modulo `2 ^ 64`. -/
def rotl64 (x n : Nat) : Nat :=
  ((x <<< (n % 64)) ||| (x >>> (64 - n % 64))) % 2 ^ 64

/-- The lane at coordinates `(x, y)` of a Keccak state of 25 lanes stored in
row-major order. -/
def lane (s : List Nat) (x y : Nat) : Nat := s.getD (x + 5 * y) 0

/-- The theta step of the Keccak-f[1600] round function. -/
def theta (s : List Nat) : List Nat :=
  let c := fun x =>
    lane s x 0 ^^^ lane s x 1 ^^^ lane s x 2 ^^^ lane s x 3 ^^^ lane s x 4
  let d := fun x => c ((x + 4) % 5) ^^^ rotl64 (c ((x + 1) % 5)) 1
  (List.range 25).map (fun i => s.getD i 0 ^^^ d (i % 5))

/-- Replace the entry at index `i` of a list. -/
def setAt (l : List Nat) (i v : Nat) : List Nat :=
  (List.range l.length).map (fun j => if j == i then v else l.getD j 0)

/-- Fill the rho rotation-offset table by the standard coordinate walk: the
rotation at step `t` is the triangular number `(t + 1)(t + 2) / 2` modulo 64,
placed at the current lane, and the walk moves `(x, y)` to
`(y, (2x + 3y) mod 5)` starting from `(1, 0)`. -/
def rhoFill (steps x y t : Nat) (acc : List Nat) : List Nat :=
  match steps with
  | 0 => acc
  | s + 1 =>
    rhoFill s y ((2 * x + 3 * y) % 5) (t + 1)
      (setAt acc (x + 5 * y) ((t + 1) * (t + 2) / 2 % 64))

/-- The rotation offsets of the rho step, indexed by `x + 5 * y`. -/
def rhoOffsets : List Nat := rhoFill 24 1 0 0 (List.replicate 25 0)

/-- The combined rho and pi steps of the Keccak-f[1600] round function: the
destination lane `(X, Y)` receives the source lane `(X + 3Y, X)` rotated by
its rho offset. -/
def rhoPi (s : List Nat) : List Nat :=
  (List.range 25).map (fun i =>
    let x := (i % 5 + 3 * (i / 5)) % 5
    let y := i % 5
    rotl64 (lane s x y) (rhoOffsets.getD (x + 5 * y) 0))

/-- The chi step of the Keccak-f[1600] round function; the 64-bit complement
is taken by xor with `2 ^ 64 - 1`. -/
def chi (s : List Nat) : List Nat :=
  (List.range 25).map (fun i =>
    let x := i % 5
    let y := i / 5
    lane s x y ^^^ ((lane s ((x + 1) % 5) y ^^^ (2 ^ 64 - 1)) &&&
      lane s ((x + 2) % 5) y))

/-- One step of the 8-bit linear-feedback shift register generating Keccak's
round-constant bits (feedback polynomial `x^8 + x^6 + x^5 + x^4 + 1`). -/
def lfsrStep (r : Nat) : Nat :=
  if r ≥ 128 then (r * 2) % 256 ^^^ 0x71 else r * 2

/-- The LFSR state after `t` steps from the initial state `1`. -/
def lfsrIter : Nat → Nat
  | 0 => 1
  | t + 1 => lfsrStep (lfsrIter t)

/-- The `t`-th round-constant bit `rc(t)` of Keccak. -/
def rcBit (t : Nat) : Nat := lfsrIter t % 2

/-- The round constant of round `i` of Keccak-f[1600]: bit `rc(7i + j)` is
placed at position `2 ^ j - 1` for `j` from 0 to 6. -/
def roundConstant (i : Nat) : Nat :=
  (List.range 7).foldl (fun acc j => acc + rcBit (7 * i + j) * 2 ^ (2 ^ j - 1)) 0

/-- The 24 round constants of Keccak-f[1600]. -/
def roundConstants : List Nat := (List.range 24).map roundConstant

/-- The iota step of the Keccak-f[1600] round function: xor the round constant
into lane `(0, 0)`. -/
def iota (s : List Nat) (rc : Nat) : List Nat :=
  match s with
  | [] => []
  | a :: rest => (a ^^^ rc) :: rest

/-- The full Keccak-f[1600] permutation: 24 rounds of theta, rho-pi, chi and
iota. -/
def keccakF (s : List Nat) : List Nat :=
  roundConstants.foldl (fun st rc => iota (chi (rhoPi (theta st))) rc) s

/-- Decode up to eight bytes into one 64-bit lane, little-endian, as Keccak's
sponge lays message bytes into the state. -/
def bytesToLane (bs : List Nat) : Nat :=
  bs.foldr (fun b acc => acc * 256 + b % 256) 0

/-- Xor one 136-byte rate block into the first 17 lanes of the state. -/
def absorbBlock (s block : List Nat) : List Nat :=
  let ls := (List.range 17).map (fun j => bytesToLane ((block.drop (8 * j)).take 8))
  (List.range 25).map (fun i => s.getD i 0 ^^^ ls.getD i 0)

/-- The multi-rate padding of the original Keccak (domain byte `0x01`,
final byte `0x80`, collapsed to `0x81` when a single pad byte fits), over the
136-byte rate of Keccak-256. -/
def pad101 (msg : List Nat) : List Nat :=
  let r := 136
  let padLen := r - msg.length % r
  if padLen == 1 then msg ++ [0x81]
  else msg ++ [0x01] ++ List.replicate (padLen - 2) 0 ++ [0x80]

/-- Absorb a padded message block by block into the sponge state. The fuel
argument makes the recursion structural (every step consumes at least one
byte, so fuel equal to the message length always suffices). -/
def absorbAll (fuel : Nat) (s : List Nat) (msg : List Nat) : List Nat :=
  match fuel, msg with
  | _, [] => s
  | 0, _ => s
  | f + 1, b :: rest =>
    absorbAll f (keccakF (absorbBlock s ((b :: rest).take 136)))
      ((b :: rest).drop 136)

/-- Encode one 64-bit lane as eight bytes, little-endian, as Keccak's sponge
squeezes digest bytes out of the state. -/
def laneToBytes (x : Nat) : List Nat :=
  (List.range 8).map (fun k => x >>> (8 * k) % 256)

/-- The Keccak-256 digest of a byte sequence: the `sha3::Keccak256` primitive
the source applies to its input, implemented as the standard sponge (rate 136,
original Keccak padding, 32-byte output). Validated against the published
digests of the empty string and of `abc`. -/
def keccak256 (input : List Nat) : List Nat :=
  let s := absorbAll (pad101 input).length (List.replicate 25 0) (pad101 input)
  laneToBytes (s.getD 0 0) ++ laneToBytes (s.getD 1 0) ++
    laneToBytes (s.getD 2 0) ++ laneToBytes (s.getD 3 0)

/-- Modelled from the spec: the hash-truncation primitive
`crate::state::contract_hash::truncated_keccak` (repository code absent from
`src/`): mask the digest's most-significant bits (the six leading bits of the
big-endian 32-byte digest, leaving a value below `2 ^ 250`) so the remaining
bytes, reinterpreted as a big-endian field element, are strictly less than the
field prime; the masked bytes are then decoded by the fallible
`from_be_bytes`, whose failure the source unwraps, modelled here as
`Option`. -/
def truncated_keccak (plain : List Nat) : Option StarkHash :=
  match plain with
  | [] => StarkHash.from_be_bytes []
  | b :: rest => StarkHash.from_be_bytes ((b &&& 0x03) :: rest)

/-- Embedding of `EntryPoint::hashed` (core.rs lines 48-58): the Keccak-256
digest of the input, truncated to fit the field, wrapped as an `EntryPoint`.
The `Option` carries the (never occurring) failure of the unwrap inside
`truncated_keccak`. -/
def EntryPoint.hashed (input : List Nat) : Option EntryPoint :=
  (truncated_keccak (keccak256 input)).map EntryPoint.mk

/-- The derived `<` on `StarknetBlockNumber` holds exactly when the wrapped
values are ordered by `<` on `Nat`. -/
theorem StarknetBlockNumber.lt_iff (a b : StarknetBlockNumber) :
    StarknetBlockNumber.lt a b = true ↔ a.val < b.val := by
  show ((some (compare a.val b.val) == some Ordering.lt) = true) ↔ a.val < b.val
  rw [show (some (compare a.val b.val) == some Ordering.lt) =
      (compare a.val b.val == Ordering.lt) from rfl]
  rcases Nat.lt_trichotomy a.val b.val with h | h | h
  · rw [Nat.compare_eq_lt.mpr h]
    exact iff_of_true (by decide) h
  · rw [Nat.compare_eq_eq.mpr h]
    exact iff_of_false (by decide) (by omega)
  · rw [Nat.compare_eq_gt.mpr h]
    exact iff_of_false (by decide) (by omega)

/-- Claim C1: for every `StarknetBlockNumber` `b` (a `u64`, so `b.val` is below
`2 ^ 64`) and every `u64` offset `o` with `o ≤ b.val`, advancing `b` by `o`
(the `Add<u64>` operation) and then receding the result by `o` (the `Sub<u64>`
operation) yields a block number equal to `b`. -/
theorem C1_advance_then_recede_roundtrip (b : StarknetBlockNumber) (o : Nat)
    (hb : b.val < U64_SIZE) (ho : o ≤ b.val) :
    (b.add o).sub o = b := by
  obtain ⟨v⟩ := b
  simp only [StarknetBlockNumber.add, StarknetBlockNumber.sub, U64_SIZE,
    StarknetBlockNumber.mk.injEq] at *
  omega

/-- Witness for C1 at `b = StarknetBlockNumber(7)`, `o = 3`. -/
theorem C1_witness :
    (StarknetBlockNumber.mk 7).val < U64_SIZE ∧ 3 ≤ (StarknetBlockNumber.mk 7).val ∧
      ((StarknetBlockNumber.mk 7).add 3).sub 3 = StarknetBlockNumber.mk 7 :=
  ⟨by decide, by decide,
    C1_advance_then_recede_roundtrip ⟨7⟩ 3 (by decide) (by decide)⟩

/-- Claim C2 (code bug, evaluation at the failing input): receding
`StarknetBlockNumber(5)` by `6` under the release-build semantics of the
`Sub<u64>` implementation silently wraps around and produces
`StarknetBlockNumber(u64::MAX)`, i.e. `StarknetBlockNumber(2 ^ 64 - 1)`,
rather than a defined underflow error (a debug build would abort with a
panic; neither build yields an error value, contradicting the claim). -/
theorem C2_recede_underflow_wraps_to_max :
    StarknetBlockNumber.sub ⟨5⟩ 6 = ⟨18446744073709551615⟩ ∧
      (18446744073709551615 : Nat) = 2 ^ 64 - 1 := by
  constructor
  · decide
  · decide

/-- Counterexample to claim C5 as stated: at `b = StarknetBlockNumber(u64::MAX)`
advancing by `1` wraps to `StarknetBlockNumber(0)`, which is not strictly
greater than `b`, so `b.advance(1) > b` does not hold for every height `b`. -/
theorem C5_counterexample :
    StarknetBlockNumber.add ⟨18446744073709551615⟩ 1 = ⟨0⟩ ∧
      StarknetBlockNumber.lt ⟨18446744073709551615⟩
        (StarknetBlockNumber.add ⟨18446744073709551615⟩ 1) = false := by
  constructor
  · decide
  · decide

/-- Claim C5 (amended): the order on `StarknetBlockNumber` agrees with the
order on the wrapped `u64` unconditionally; `b` advanced by `1` is strictly
greater than `b` whenever the increment does not overflow `u64`; and advancing
a fixed `b` is strictly monotone in the offset whenever the larger sum does
not overflow `u64`. -/
theorem C5_order_consistency_and_monotonicity (b1 b2 : StarknetBlockNumber) :
    (StarknetBlockNumber.lt b1 b2 = true ↔ b1.val < b2.val) ∧
      (b1.val + 1 < U64_SIZE → StarknetBlockNumber.lt b1 (b1.add 1) = true) ∧
      (∀ o1 o2 : Nat, o1 < o2 → b1.val + o2 < U64_SIZE →
        StarknetBlockNumber.lt (b1.add o1) (b1.add o2) = true) := by
  refine ⟨StarknetBlockNumber.lt_iff b1 b2, ?_, ?_⟩
  · intro h
    rw [StarknetBlockNumber.lt_iff]
    simp only [StarknetBlockNumber.add, U64_SIZE] at *
    omega
  · intro o1 o2 h1 h2
    rw [StarknetBlockNumber.lt_iff]
    simp only [StarknetBlockNumber.add, U64_SIZE] at *
    omega

/-- Witness for C5 at `b1 = StarknetBlockNumber(3)`, `b2 = StarknetBlockNumber(9)`,
offsets `1 < 5`. -/
theorem C5_witness :
    StarknetBlockNumber.lt ⟨3⟩ (StarknetBlockNumber.add ⟨3⟩ 1) = true ∧
      StarknetBlockNumber.lt (StarknetBlockNumber.add ⟨3⟩ 1)
        (StarknetBlockNumber.add ⟨3⟩ 5) = true ∧
      StarknetBlockNumber.lt ⟨3⟩ ⟨9⟩ = true :=
  ⟨(C5_order_consistency_and_monotonicity ⟨3⟩ ⟨9⟩).2.1 (by decide),
    (C5_order_consistency_and_monotonicity ⟨3⟩ ⟨9⟩).2.2 1 5 (by decide) (by decide),
    (C5_order_consistency_and_monotonicity ⟨3⟩ ⟨9⟩).1.mpr (by decide)⟩

/-- Claim C6: the genesis constant equals `StarknetBlockNumber(0)`; advancing
`GENESIS` by `5` yields `StarknetBlockNumber(5)`; receding
`StarknetBlockNumber(5)` by `5` yields `GENESIS`. -/
theorem C6_genesis_scenarios :
    StarknetBlockNumber.GENESIS = ⟨0⟩ ∧
      StarknetBlockNumber.GENESIS.add 5 = ⟨5⟩ ∧
      StarknetBlockNumber.sub ⟨5⟩ 5 = StarknetBlockNumber.GENESIS := by
  refine ⟨rfl, ?_, ?_⟩
  · decide
  · decide

/-- Claim C7: the three conversion adapters (`StarknetBlockNumber` into
`BlockNumberOrTag`, `StarknetBlockHash` into `BlockHashOrTag`,
`EthereumBlockNumber` into the Ethereum client's block-query parameter) are
total functions of their input and injective, so the original identifier is
recoverable from the tagged output. -/
theorem C7_adapters_total_and_injective (n1 n2 : StarknetBlockNumber)
    (h1 h2 : StarknetBlockHash) (e1 e2 : EthereumBlockNumber) :
    (BlockNumberOrTag.ofStarknetBlockNumber n1 =
        BlockNumberOrTag.ofStarknetBlockNumber n2 → n1 = n2) ∧
      (BlockHashOrTag.ofStarknetBlockHash h1 =
        BlockHashOrTag.ofStarknetBlockHash h2 → h1 = h2) ∧
      (Web3BlockId.ofEthereumBlockNumber e1 =
        Web3BlockId.ofEthereumBlockNumber e2 → e1 = e2) := by
  obtain ⟨v1⟩ := e1
  obtain ⟨v2⟩ := e2
  refine ⟨?_, ?_, ?_⟩ <;> intro h
  · simpa [BlockNumberOrTag.ofStarknetBlockNumber] using h
  · simpa [BlockHashOrTag.ofStarknetBlockHash] using h
  · simpa [Web3BlockId.ofEthereumBlockNumber] using h

/-- Witness for C7: each adapter's injectivity applied at concrete equal
inputs. -/
theorem C7_witness :
    (StarknetBlockNumber.mk 3 = StarknetBlockNumber.mk 3) ∧
      (StarknetBlockHash.mk ⟨11⟩ = StarknetBlockHash.mk ⟨11⟩) ∧
      (EthereumBlockNumber.mk 7 = EthereumBlockNumber.mk 7) :=
  ⟨(C7_adapters_total_and_injective ⟨3⟩ ⟨3⟩ ⟨⟨11⟩⟩ ⟨⟨11⟩⟩ ⟨7⟩ ⟨7⟩).1 rfl,
    (C7_adapters_total_and_injective ⟨3⟩ ⟨3⟩ ⟨⟨11⟩⟩ ⟨⟨11⟩⟩ ⟨7⟩ ⟨7⟩).2.1 rfl,
    (C7_adapters_total_and_injective ⟨3⟩ ⟨3⟩ ⟨⟨11⟩⟩ ⟨⟨11⟩⟩ ⟨7⟩ ⟨7⟩).2.2 rfl⟩

/-- Claim C9: for the catalogue's identifier types (shown for
`ContractAddress`, `StarknetBlockNumber` and `EthereumBlockHash`), the derived
equality is structural over the single wrapped value: two identifiers of the
same type compare equal if and only if their wrapped underlying values are
equal. -/
theorem C9_structural_equality (a1 a2 : ContractAddress)
    (b1 b2 : StarknetBlockNumber) (c1 c2 : EthereumBlockHash) :
    (ContractAddress.beq a1 a2 = true ↔ a1.val = a2.val) ∧
      (StarknetBlockNumber.beq b1 b2 = true ↔ b1.val = b2.val) ∧
      (EthereumBlockHash.beq c1 c2 = true ↔ c1.val = c2.val) := by
  obtain ⟨⟨x1⟩⟩ := a1
  obtain ⟨⟨x2⟩⟩ := a2
  obtain ⟨y1⟩ := b1
  obtain ⟨y2⟩ := b2
  obtain ⟨⟨z1⟩⟩ := c1
  obtain ⟨⟨z2⟩⟩ := c2
  simp [ContractAddress.beq, StarkHash.beq, StarknetBlockNumber.beq,
    EthereumBlockHash.beq, H256.beq]

/-- Claim C10: the in-place height operators agree with the functional ones:
for every `StarknetBlockNumber` `b` and offset `o`, `b += o` leaves `b` equal
to `b + o` and `b -= o` leaves `b` equal to `b - o`. -/
theorem C10_assign_operators_agree (b : StarknetBlockNumber) (o : Nat) :
    b.add_assign o = b.add o ∧ b.sub_assign o = b.sub o :=
  ⟨rfl, rfl⟩

/-- A big-endian byte fold starting from `acc` stays below
`(acc + 1) * 256 ^ length`. -/
theorem be_foldl_lt (bs : List Nat) (acc : Nat) :
    bs.foldl (fun a b => a * 256 + b % 256) acc < (acc + 1) * 256 ^ bs.length := by
  induction bs generalizing acc with
  | nil => simp
  | cons b rest ih =>
    simp only [List.foldl_cons, List.length_cons]
    have h1 := ih (acc * 256 + b % 256)
    have hb : b % 256 < 256 := Nat.mod_lt _ (by norm_num)
    have h2 : (acc * 256 + b % 256 + 1) * 256 ^ rest.length ≤
        ((acc + 1) * 256) * 256 ^ rest.length :=
      Nat.mul_le_mul (by omega) le_rfl
    have h3 : ((acc + 1) * 256) * 256 ^ rest.length =
        (acc + 1) * 256 ^ (rest.length + 1) := by
      ring
    omega

/-- A Keccak-256 digest is 32 bytes long. -/
theorem keccak256_length (input : List Nat) : (keccak256 input).length = 32 := by
  simp [keccak256, laneToBytes]

/-- `EntryPoint::hashed` always succeeds, and the wrapped field-element value
is below `2 ^ 250`, hence below the field prime: the mask leaves at most two
bits of the leading digest byte and 31 further bytes. -/
theorem hashed_eq_some (input : List Nat) :
    ∃ v : Nat, EntryPoint.hashed input = some ⟨⟨v⟩⟩ ∧ v < STARK_PRIME := by
  have hlen := keccak256_length input
  obtain ⟨b, rest, hd⟩ : ∃ b rest, keccak256 input = b :: rest := by
    cases h : keccak256 input with
    | nil =>
      rw [h] at hlen
      simp at hlen
    | cons b rest => exact ⟨b, rest, rfl⟩
  have hrest : rest.length = 31 := by
    rw [hd] at hlen
    simpa using hlen
  have hmask : b &&& 3 < 4 := by
    have := Nat.and_le_right (n := b) (m := 3)
    omega
  have h2 := be_foldl_lt rest (b &&& 3)
  rw [hrest] at h2
  have hp : 4 * 256 ^ 31 < STARK_PRIME := by norm_num [STARK_PRIME]
  have hv2 : rest.foldl (fun a b => a * 256 + b % 256) (b &&& 3) < STARK_PRIME := by
    have h4 : ((b &&& 3) + 1) * 256 ^ 31 ≤ 4 * 256 ^ 31 :=
      Nat.mul_le_mul (by omega) le_rfl
    omega
  have h1 : ((b &&& 3) :: rest).foldl (fun a b => a * 256 + b % 256) 0
      = rest.foldl (fun a b => a * 256 + b % 256) (b &&& 3) := by
    simp only [List.foldl_cons, Nat.zero_mul, Nat.zero_add]
    rw [Nat.mod_eq_of_lt (show b &&& 3 < 256 by omega)]
  have hv0 : ((b &&& 3) :: rest).foldl (fun a b => a * 256 + b % 256) 0
      < STARK_PRIME := by
    rw [h1]
    exact hv2
  refine ⟨((b &&& 3) :: rest).foldl (fun a b => a * 256 + b % 256) 0, ?_, hv0⟩
  simp only [EntryPoint.hashed, hd, truncated_keccak, StarkHash.from_be_bytes]
  rw [if_pos hv0]
  rfl

/-- Claim C3: `EntryPoint::hashed` is pure and deterministic: it is a function
of its input byte sequence alone, so any two evaluations on equal inputs yield
equal results. -/
theorem C3_hashed_deterministic (s1 s2 : List Nat) (h : s1 = s2) :
    EntryPoint.hashed s1 = EntryPoint.hashed s2 := by
  rw [h]

/-- Witness for C3: two syntactically different spellings of the byte sequence
`[1, 2, 3]` hash to the same value. -/
theorem C3_witness :
    EntryPoint.hashed ([1] ++ [2, 3]) = EntryPoint.hashed [1, 2, 3] :=
  C3_hashed_deterministic ([1] ++ [2, 3]) [1, 2, 3] rfl

/-- Claim C4: for every byte sequence, the field-element value wrapped by the
`EntryPoint` that `EntryPoint::hashed` returns is strictly less than the field
prime. -/
theorem C4_hashed_below_prime (input : List Nat) (e : EntryPoint)
    (h : EntryPoint.hashed input = some e) : e.val.val < STARK_PRIME := by
  obtain ⟨v, hv, hlt⟩ := hashed_eq_some input
  rw [hv] at h
  injection h with h
  rw [← h]
  exact hlt

set_option maxRecDepth 100000 in
/-- Witness for C4 at the empty byte sequence: the selector value is the
Keccak-256 digest of the empty string with its six leading bits masked off,
and it is below the field prime. -/
theorem C4_witness :
    (EntryPoint.mk
      ⟨823833895604462717252502556715286789162255443716699424700455428624168100976⟩).val.val
      < STARK_PRIME :=
  C4_hashed_below_prime []
    ⟨⟨823833895604462717252502556715286789162255443716699424700455428624168100976⟩⟩
    (by decide)

/-- Claim C8: `EntryPoint::hashed` is total: for every byte sequence (the
empty one included) the internal unwrap succeeds and an `EntryPoint` is
returned. -/
theorem C8_hashed_total (input : List Nat) :
    ∃ e : EntryPoint, EntryPoint.hashed input = some e := by
  obtain ⟨v, hv, _⟩ := hashed_eq_some input
  exact ⟨⟨⟨v⟩⟩, hv⟩
